import Mathlib

/-!
Shallow embedding of `src/main.py` of host-x509-certificate-exporter.

The Python program resolves a configuration (host list, label list, metric
port and polling interval) from an optional YAML document and the process
environment (`AppConfig`), then repeatedly runs a collection cycle
(`X509Metrics.fetch`) that fetches each host's TLS certificate and records
its validity window into Prometheus gauges.

Modelling conventions:
  * `os.environ` is an ordered association list `List (String × String)`
    (Python dicts iterate in insertion order; keys are unique, modelled by
    first-match lookup).
  * Python `int(s)` is `pyInt`: strip surrounding whitespace, optional
    sign, then a non-empty digit run allowing single interior underscores
    between digits; anything else raises `ValueError`, modelled as `none`.
  * Regex matching in the source uses only case-insensitive anchored
    patterns over ASCII classes; it is modelled by lowercasing and direct
    character tests.
  * Python `s.split(":")` is `pySplitColon`, defined recursively on the
    character list (same semantics for a single-character separator).
  * Exceptions that escape a function are modelled with `Except` /
    `Option`; the `try`/`except` blocks of the source become the
    corresponding success/failure branches.
-/

/-- One polling target, as produced by config resolution
(`{"name": ..., "port": ...}` dicts in the source). -/
structure HostTarget where
  name : String
  port : String
deriving DecidableEq, Repr

/-- One custom metric label (`{"name": ..., "value": ...}` in the source). -/
structure CustomLabel where
  name : String
  value : String
deriving DecidableEq, Repr

/-- `dict_get(dictionary, key, default_value)` from the source: if the key is
present, return `dictionary[key] or default_value` (Python `or` yields the
default when the stored value is falsy — for string values, when it is the
empty string); otherwise return the default. -/
def dict_get (dictionary : List (String × String)) (key : String)
    (default_value : String) : String :=
  match dictionary.find? (fun p => p.1 = key) with
  | some p => if p.2 = "" then default_value else p.2
  | none => default_value

/-- A run of ASCII digits, possibly with single interior underscores, as
accepted by Python `int` after the optional sign: `digit+ (_ digit+)*`.
`pyDigitRun` requires a leading digit. -/
def pyDigitRun : List Char → Bool
  | [] => false
  | c :: cs => c.isDigit && pyDigitRest cs
where
  pyDigitRest : List Char → Bool
  | [] => true
  | c :: cs => if c = '_' then pyDigitRun cs else c.isDigit && pyDigitRest cs

/-- Numeric value of a digit run, ignoring underscores. -/
def digitsVal (cs : List Char) : Nat :=
  cs.foldl (fun a c => if c = '_' then a else a * 10 + (c.toNat - 48)) 0

/-- Strip leading and trailing whitespace from a character list (Python
`str.strip()` with no argument, restricted to ASCII whitespace). -/
def trimChars (cs : List Char) : List Char :=
  ((cs.dropWhile Char.isWhitespace).reverse.dropWhile Char.isWhitespace).reverse

/-- Python `int(s)` for `str` input: strip whitespace, optional `+`/`-`
sign, then a digit run; `none` models the `ValueError` raised otherwise. -/
def pyInt (s : String) : Option Int :=
  match trimChars s.toList with
  | '+' :: cs => if pyDigitRun cs then some (digitsVal cs) else none
  | '-' :: cs => if pyDigitRun cs then some (-(digitsVal cs : Int)) else none
  | cs => if pyDigitRun cs then some (digitsVal cs) else none

/-- ASCII lowercasing of a string (Python `str.lower()`, restricted to
ASCII letters as used by the source's uppercase patterns). -/
def strLower (s : String) : String :=
  String.mk (s.toList.map Char.toLower)

/-- Name test for the host regex `^X509_CONFIG_HOST_\d{1,}$` with
`re.IGNORECASE`: a case-insensitive literal prefix followed by one or more
digits. -/
def isHostEnvName (n : String) : Bool :=
  let l := (strLower n).toList
  "x509_config_host_".toList.isPrefixOf l &&
    (let suf := l.drop 17
     !suf.isEmpty && suf.all (fun c => c.isDigit))

/-- Character class `[A-Z0-9_-]` under `re.IGNORECASE`. -/
def isLabelEnvChar (c : Char) : Bool :=
  c.isUpper || c.isLower || c.isDigit || c = '_' || c = '-'

/-- Capture group of `^X509_CONFIG_LABEL_([A-Z0-9_-]+)$` with
`re.IGNORECASE`, taken from the original variable name (the source calls
`.lower()` on it afterwards). -/
def labelEnvSuffix? (n : String) : Option String :=
  if "x509_config_label_".toList.isPrefixOf (strLower n).toList then
    let suf := n.toList.drop 18
    if !suf.isEmpty && suf.all isLabelEnvChar then some (String.mk suf)
    else none
  else none

/-- Python `value.split(":")` on the character list: splitting an empty
string yields one empty group; each separator occurrence opens a new
group. -/
def splitChar (sep : Char) : List Char → List (List Char)
  | [] => [[]]
  | c :: rest =>
    let r := splitChar sep rest
    if c = sep then [] :: r
    else
      match r with
      | g :: gs => (c :: g) :: gs
      | [] => [[c]]

/-- `s.split(":")` as used by `find_hosts_from_environment`. -/
def pySplitColon (s : String) : List String :=
  (splitChar ':' s.toList).map (fun g => String.mk g)

/-- One iteration of the loop body of `AppConfig.find_hosts_from_environment`:
an environment entry contributes a host exactly when its name matches the
host pattern and its value splits on `:` into exactly two parts. -/
def hostOfEnvEntry (p : String × String) : Option HostTarget :=
  if isHostEnvName p.1 then
    match pySplitColon p.2 with
    | [a, b] => some { name := a, port := b }
    | _ => none
  else none

/-- `AppConfig.find_hosts_from_environment`: scan the environment in order,
keeping one `HostTarget` per matching entry. -/
def find_hosts_from_environment (env : List (String × String)) :
    List HostTarget :=
  env.filterMap hostOfEnvEntry

/-- `AppConfig.find_labels_from_environment`: scan the environment in
order; each matching entry contributes `{name: suffix.lower(), value}`. -/
def find_labels_from_environment (env : List (String × String)) :
    List CustomLabel :=
  env.filterMap (fun p =>
    match labelEnvSuffix? p.1 with
    | some suf => some { name := strLower suf, value := p.2 }
    | none => none)

/-- The label-merge loop of `AppConfig.__init__`: each environment label is
appended only if no label with exactly the same name is already in the
(growing) list. -/
def mergeLabels (fileLabels envLabels : List CustomLabel) :
    List CustomLabel :=
  envLabels.foldl
    (fun acc l =>
      if (acc.map (fun x => x.name)).contains l.name then acc
      else acc ++ [l]) fileLabels

/-- The parsed YAML document, when the file exists and parses. Each field
is `some` exactly when the corresponding top-level key is present; a
present key wholesale replaces the attribute via `__dict__.update`. -/
structure ConfigDoc where
  metrics : Option (List (String × Int)) := none
  hosts : Option (List HostTarget) := none
  labels : Option (List CustomLabel) := none
deriving DecidableEq, Repr

/-- Lines 35–38 of the source: the `metrics` dict built from the
environment. `int(...)` failure on either variable is the uncaught
`ValueError` (the surrounding `try` only catches `yaml.YAMLError`). -/
def resolveMetricsFromEnv (env : List (String × String)) :
    Except String (List (String × Int)) :=
  match pyInt (dict_get env "X509_CONFIG_METRICS_PORT" "8932"),
        pyInt (dict_get env "X509_CONFIG_METRICS_POLLING_INTERVAL" "43200") with
  | some p, some i => .ok [("port", p), ("pollingInterval", i)]
  | _, _ => .error "ValueError: invalid literal for int() with base 10"

/-- The resolved configuration (`AppConfig` after `__init__`). -/
structure AppConfig where
  metrics : List (String × Int)
  hosts : List HostTarget
  labels : List CustomLabel
deriving DecidableEq, Repr

/-- `AppConfig.__init__`: environment metrics first (uncaught `ValueError`
on a malformed numeric override), then the document's top-level keys
replace attributes wholesale, then environment hosts are appended after
file hosts and environment labels merged behind file labels. `doc = none`
models both a missing file and a parse failure (the source logs and
continues with the defaults in that case). -/
def AppConfig.resolve (doc : Option ConfigDoc)
    (env : List (String × String)) : Except String AppConfig :=
  match resolveMetricsFromEnv env with
  | .error e => .error e
  | .ok m =>
    let metrics := match doc with
      | some d => d.metrics.getD m
      | none => m
    let fileHosts := match doc with
      | some d => d.hosts.getD []
      | none => []
    let fileLabels := match doc with
      | some d => d.labels.getD []
      | none => []
    .ok { metrics := metrics
          hosts := fileHosts ++ find_hosts_from_environment env
          labels := mergeLabels fileLabels (find_labels_from_environment env) }

/-- The distinguished-name attribute OIDs the source reads
(`x509.oid.NameOID.*`). -/
inductive NameOID where
  | COUNTRY_NAME
  | LOCALITY_NAME
  | ORGANIZATION_NAME
  | ORGANIZATIONAL_UNIT_NAME
  | STATE_OR_PROVINCE_NAME
  | COMMON_NAME
deriving DecidableEq, Repr

/-- An X.509 name (issuer or subject): an ordered list of attributes, each
an OID with a string value. -/
structure X509Name where
  attributes : List (NameOID × String)
deriving DecidableEq, Repr

/-- `nameObject.get_attributes_for_oid(oid)`: all values for an OID, in
order. -/
def get_attributes_for_oid (n : X509Name) (oid : NameOID) : List String :=
  (n.attributes.filter (fun a => a.1 = oid)).map (fun a => a.2)

/-- `X509Metrics.get_oid_attribute`: the first value for the OID, or
`None` when the attribute list is empty. -/
def get_oid_attribute (n : X509Name) (oid : NameOID) : Option String :=
  match get_attributes_for_oid n oid with
  | [] => none
  | v :: _ => some v

/-- A parsed certificate, as far as `fetch` reads it. `not_valid_after` and
`not_valid_before` are the UTC Unix timestamps the source obtains via
`.replace(tzinfo=pytz.UTC)` followed by `.timestamp()`. -/
structure X509Certificate where
  not_valid_after : Int
  not_valid_before : Int
  serial_number : Int
  issuer : X509Name
  subject : X509Name
deriving DecidableEq, Repr

/-- A value bound to a label: the source's label dict holds strings, the
integer `serial_number`, and `None` for absent name attributes. -/
inductive LabelValue where
  | str : String → LabelValue
  | int : Int → LabelValue
  | null : LabelValue
deriving DecidableEq, Repr

/-- An absent attribute becomes `None` in the label dict. -/
def optLV : Option String → LabelValue
  | some s => .str s
  | none => .null

/-- The `host` label value: `f"{host['name']}:{host['port']}"`. -/
def hostLabel (host : HostTarget) : String :=
  host.name ++ ":" ++ host.port

/-- The fixed label names declared for the per-certificate gauges in
`X509Metrics.__init__` (lines 105–120), in source order. -/
def fixedLabelNames : List String :=
  ["host",
   "issuer_C", "issuer_L", "issuer_O", "issuer_OU", "issuer_ST", "issuer_CN",
   "serial_number",
   "subject_C", "subject_L", "subject_O", "subject_OU", "subject_CN",
   "subject_ST"]

/-- The full label schema of `cert_not_after`, `cert_not_before` and
`expired`: the fixed names followed by the resolved custom-label names
(line 122). -/
def gaugeLabelNames (config : AppConfig) : List String :=
  fixedLabelNames ++ config.labels.map (fun x => x.name)

/-- The custom-label loop of `fetch` (lines 183–185): each config label is
added to the dict only when its name is not already a key. -/
def addCustomLabels (customs : List CustomLabel)
    (acc : List (String × LabelValue)) : List (String × LabelValue) :=
  customs.foldl
    (fun acc l =>
      if (acc.map (fun p => p.1)).contains l.name then acc
      else acc ++ [(l.name, LabelValue.str l.value)]) acc

/-- The label dict built in `fetch` (lines 165–185) for one host and its
certificate: the fixed entries in source order, then the custom labels. -/
def composeLabels (config : AppConfig) (host : HostTarget)
    (cert : X509Certificate) : List (String × LabelValue) :=
  addCustomLabels config.labels
    [("host", .str (hostLabel host)),
     ("issuer_C", optLV (get_oid_attribute cert.issuer .COUNTRY_NAME)),
     ("issuer_L", optLV (get_oid_attribute cert.issuer .LOCALITY_NAME)),
     ("issuer_O", optLV (get_oid_attribute cert.issuer .ORGANIZATION_NAME)),
     ("issuer_OU",
       optLV (get_oid_attribute cert.issuer .ORGANIZATIONAL_UNIT_NAME)),
     ("issuer_ST",
       optLV (get_oid_attribute cert.issuer .STATE_OR_PROVINCE_NAME)),
     ("issuer_CN", optLV (get_oid_attribute cert.issuer .COMMON_NAME)),
     ("serial_number", .int cert.serial_number),
     ("subject_C", optLV (get_oid_attribute cert.subject .COUNTRY_NAME)),
     ("subject_L", optLV (get_oid_attribute cert.subject .LOCALITY_NAME)),
     ("subject_O", optLV (get_oid_attribute cert.subject .ORGANIZATION_NAME)),
     ("subject_OU",
       optLV (get_oid_attribute cert.subject .ORGANIZATIONAL_UNIT_NAME)),
     ("subject_CN", optLV (get_oid_attribute cert.subject .COMMON_NAME)),
     ("subject_ST",
       optLV (get_oid_attribute cert.subject .STATE_OR_PROVINCE_NAME))]

/-- A label key of a per-certificate gauge series. -/
abbrev LabelKey := List (String × LabelValue)

/-- The gauge state owned by the metrics sink. Each gauge maps a label key
to the last value set for that series (`none` = never written). Gauge
values are real numbers in Prometheus; the values this program writes are
integers (Unix timestamps, 0/1 flags, error counts), so they are modelled
as `Int`. -/
structure MetricSink where
  not_valid_after : LabelKey → Option Int
  not_valid_before : LabelKey → Option Int
  expired : LabelKey → Option Int
  host_read_errors : String → Option Int
  read_errors : Option Int

/-- `Gauge.labels(...).set(v)`: overwrite one series of a gauge. -/
def setSeries {K : Type} [DecidableEq K] (g : K → Option Int) (k : K)
    (v : Int) : K → Option Int :=
  fun k' => if k' = k then some v else g k'

/-- One iteration of the host loop of `fetch` (lines 152–193), on the state
(sink, error_count). The fetch-and-parse of lines 155–157 is the per-host
outcome oracle `fetchResult` (`none` models any exception raised inside
the `try` block: unreachable host, TLS failure, malformed certificate).
`now` is `datetime.datetime.now(pytz.UTC)` as a Unix timestamp.
On success the four gauge writes of lines 187–190 happen; on failure only
the error count and the per-host error flag change (lines 191–193). -/
def processHost (config : AppConfig) (now : Int)
    (fetchResult : HostTarget → Option X509Certificate)
    (st : MetricSink × Nat) (host : HostTarget) : MetricSink × Nat :=
  match fetchResult host with
  | some cert =>
    let labels := composeLabels config host cert
    let sink := st.1
    let sink := { sink with
      not_valid_after :=
        setSeries sink.not_valid_after labels cert.not_valid_after }
    let sink := { sink with
      not_valid_before :=
        setSeries sink.not_valid_before labels cert.not_valid_before }
    let sink := { sink with
      expired :=
        setSeries sink.expired labels
          (if cert.not_valid_after < now then 1 else 0) }
    let sink := { sink with
      host_read_errors :=
        setSeries sink.host_read_errors (hostLabel host) 0 }
    (sink, st.2)
  | none =>
    ({ st.1 with
        host_read_errors :=
          setSeries st.1.host_read_errors (hostLabel host) 1 },
      st.2 + 1)

/-- `X509Metrics.fetch` (lines 148–196): run the host loop starting from
`error_count = 0`, then write the aggregate `read_errors` gauge once. The
function is total — no exception escapes a cycle. -/
def fetch (config : AppConfig) (now : Int)
    (fetchResult : HostTarget → Option X509Certificate)
    (sink : MetricSink) : MetricSink :=
  let r := config.hosts.foldl (processHost config now fetchResult) (sink, 0)
  { r.1 with read_errors := some (r.2 : Int) }

example : pyInt "8932" = some 8932 := by decide
example : pyInt "abc" = none := by decide
example : pyInt " -4_2 " = some (-42) := by decide
example : pySplitColon "a:b" = ["a", "b"] := by decide
example : pySplitColon "a" = ["a"] := by decide
example : pySplitColon "a:b:c" = ["a", "b", "c"] := by decide
example : isHostEnvName "x509_config_host_12" = true := by decide
example : isHostEnvName "X509_CONFIG_HOST_" = false := by decide
example : labelEnvSuffix? "X509_CONFIG_LABEL_Foo-1" = some "Foo-1" := by decide
example : labelEnvSuffix? "X509_CONFIG_LABEL_" = none := by decide
example :
    AppConfig.resolve none [("X509_CONFIG_HOST_1", "h:443")] =
      .ok { metrics := [("port", 8932), ("pollingInterval", 43200)],
            hosts := [{ name := "h", port := "443" }], labels := [] } := by
  rfl

/-! ## Helper lemmas -/

theorem pyInt_default_port : pyInt "8932" = some 8932 := by decide

theorem pyInt_default_interval : pyInt "43200" = some 43200 := by decide

/-- An empty metrics sink: no series of any gauge has ever been written. -/
def emptySink : MetricSink :=
  { not_valid_after := fun _ => none
    not_valid_before := fun _ => none
    expired := fun _ => none
    host_read_errors := fun _ => none
    read_errors := none }

theorem splitChar_ne_nil (sep : Char) (cs : List Char) :
    splitChar sep cs ≠ [] := by
  induction cs with
  | nil => simp [splitChar]
  | cons c rest ih =>
    rcases h : splitChar sep rest with _ | ⟨g, gs⟩
    · exact absurd h ih
    · by_cases hc : c = sep
      · simp [splitChar, hc, h]
      · simp [splitChar, hc, h]

theorem splitChar_length (sep : Char) (cs : List Char) :
    (splitChar sep cs).length = cs.count sep + 1 := by
  induction cs with
  | nil => simp [splitChar]
  | cons c rest ih =>
    rcases h : splitChar sep rest with _ | ⟨g, gs⟩
    · exact absurd h (splitChar_ne_nil sep rest)
    · by_cases hc : c = sep
      · subst hc
        simp [splitChar, h, List.count_cons] at ih ⊢
        omega
      · simp [splitChar, hc, h, List.count_cons, Ne.symm hc] at ih ⊢
        omega

theorem splitChar_no_sep (sep : Char) (cs : List Char) (h : sep ∉ cs) :
    splitChar sep cs = [cs] := by
  induction cs with
  | nil => rfl
  | cons c rest ih =>
    have hc : ¬ c = sep := by
      rintro rfl
      exact h (List.mem_cons_self _ _)
    have hrest : sep ∉ rest := fun hx => h (List.mem_cons_of_mem _ hx)
    simp [splitChar, hc, ih hrest]

theorem splitChar_single (sep : Char) (a b : List Char)
    (ha : sep ∉ a) (hb : sep ∉ b) :
    splitChar sep (a ++ sep :: b) = [a, b] := by
  induction a with
  | nil => simp [splitChar, splitChar_no_sep sep b hb]
  | cons c a2 ih =>
    have hc : ¬ c = sep := by
      rintro rfl
      exact ha (List.mem_cons_self _ _)
    have ha2 : sep ∉ a2 := fun hx => ha (List.mem_cons_of_mem _ hx)
    simp [splitChar, hc, ih ha2]

/-! ## Claim theorems -/

/-- **C10.** For every configuration lookup through `dict_get`, a key that
is present but bound to an empty string (the falsy value of the string
domain) is treated exactly like an absent key: the default is returned; in
particular an empty-string environment override of the metrics port
silently resolves to the built-in default 8932 rather than an error. -/
theorem dict_get_falsy_like_absent :
    (∀ (d : List (String × String)) (key dv : String),
        d.find? (fun p => p.1 = key) = none → dict_get d key dv = dv) ∧
    (∀ (d : List (String × String)) (key dv v : String),
        d.find? (fun p => p.1 = key) = some (key, v) → v = "" →
        dict_get d key dv = dv) ∧
    (∀ env : List (String × String),
        env.find? (fun p => p.1 = "X509_CONFIG_METRICS_PORT") =
            some ("X509_CONFIG_METRICS_PORT", "") →
        env.find? (fun p => p.1 = "X509_CONFIG_METRICS_POLLING_INTERVAL") =
            none →
        AppConfig.resolve none env =
          .ok { metrics := [("port", 8932), ("pollingInterval", 43200)]
                hosts := find_hosts_from_environment env
                labels := mergeLabels [] (find_labels_from_environment env) }) := by
  refine ⟨?_, ?_, ?_⟩
  · intro d key dv h
    simp [dict_get, h]
  · intro d key dv v h hv
    subst hv
    simp [dict_get, h]
  · intro env h1 h2
    have g1 : dict_get env "X509_CONFIG_METRICS_PORT" "8932" = "8932" := by
      simp [dict_get, h1]
    have g2 : dict_get env "X509_CONFIG_METRICS_POLLING_INTERVAL" "43200" =
        "43200" := by
      simp [dict_get, h2]
    simp [AppConfig.resolve, resolveMetricsFromEnv, g1, g2,
      pyInt_default_port, pyInt_default_interval]

theorem dict_get_falsy_like_absent_witness :
    dict_get [] "k" "dflt" = "dflt" ∧
    dict_get [("k", "")] "k" "dflt" = "dflt" ∧
    AppConfig.resolve none [("X509_CONFIG_METRICS_PORT", "")] =
      .ok { metrics := [("port", 8932), ("pollingInterval", 43200)]
            hosts := [], labels := [] } :=
  ⟨dict_get_falsy_like_absent.1 [] "k" "dflt" rfl,
   dict_get_falsy_like_absent.2.1 [("k", "")] "k" "dflt" "" rfl rfl,
   dict_get_falsy_like_absent.2.2 [("X509_CONFIG_METRICS_PORT", "")]
     rfl rfl⟩

/-- **C8.** With both numeric environment variables unset (and no file
`metrics` mapping overriding them), config resolution yields port 8932 and
polling interval 43200; with either variable set to a non-empty,
non-numeric string, resolution fails with the uncaught `ValueError` — the
resolver has no handler for it (its only `except` clause catches
`yaml.YAMLError`), so startup aborts. -/
theorem config_defaults_and_fatal_override :
    (∀ (doc : Option ConfigDoc) (env : List (String × String)),
        (∀ d, doc = some d → d.metrics = none) →
        env.find? (fun p => p.1 = "X509_CONFIG_METRICS_PORT") = none →
        env.find? (fun p => p.1 = "X509_CONFIG_METRICS_POLLING_INTERVAL") =
            none →
        ∃ c, AppConfig.resolve doc env = .ok c ∧
          c.metrics = [("port", 8932), ("pollingInterval", 43200)]) ∧
    (∀ (doc : Option ConfigDoc) (env : List (String × String)) (v : String),
        env.find? (fun p => p.1 = "X509_CONFIG_METRICS_PORT") =
            some ("X509_CONFIG_METRICS_PORT", v) →
        v ≠ "" → pyInt v = none →
        ∃ e, AppConfig.resolve doc env = .error e) ∧
    (∀ (doc : Option ConfigDoc) (env : List (String × String)) (v : String),
        env.find? (fun p => p.1 = "X509_CONFIG_METRICS_POLLING_INTERVAL") =
            some ("X509_CONFIG_METRICS_POLLING_INTERVAL", v) →
        v ≠ "" → pyInt v = none →
        ∃ e, AppConfig.resolve doc env = .error e) := by
  refine ⟨?_, ?_, ?_⟩
  · intro doc env hdoc h1 h2
    have g1 : dict_get env "X509_CONFIG_METRICS_PORT" "8932" = "8932" := by
      simp [dict_get, h1]
    have g2 : dict_get env "X509_CONFIG_METRICS_POLLING_INTERVAL" "43200" =
        "43200" := by
      simp [dict_get, h2]
    have gm : resolveMetricsFromEnv env =
        .ok [("port", 8932), ("pollingInterval", 43200)] := by
      simp [resolveMetricsFromEnv, g1, g2, pyInt_default_port,
        pyInt_default_interval]
    cases doc with
    | none =>
      refine ⟨{ metrics := [("port", 8932), ("pollingInterval", 43200)]
                hosts := find_hosts_from_environment env
                labels := mergeLabels [] (find_labels_from_environment env) },
        ?_, rfl⟩
      simp [AppConfig.resolve, gm]
    | some d =>
      have hd : d.metrics = none := hdoc d rfl
      refine ⟨{ metrics :=
                  d.metrics.getD [("port", 8932), ("pollingInterval", 43200)]
                hosts := d.hosts.getD [] ++ find_hosts_from_environment env
                labels := mergeLabels (d.labels.getD [])
                  (find_labels_from_environment env) },
        ?_, ?_⟩
      · simp [AppConfig.resolve, gm]
      · simp [hd]
  · intro doc env v h1 hne hbad
    have g1 : dict_get env "X509_CONFIG_METRICS_PORT" "8932" = v := by
      simp [dict_get, h1, hne]
    refine ⟨"ValueError: invalid literal for int() with base 10", ?_⟩
    simp [AppConfig.resolve, resolveMetricsFromEnv, g1, hbad]
  · intro doc env v h2 hne hbad
    have g2 : dict_get env "X509_CONFIG_METRICS_POLLING_INTERVAL" "43200" =
        v := by
      simp [dict_get, h2, hne]
    refine ⟨"ValueError: invalid literal for int() with base 10", ?_⟩
    cases hp : pyInt (dict_get env "X509_CONFIG_METRICS_PORT" "8932") with
    | none => simp [AppConfig.resolve, resolveMetricsFromEnv, hp]
    | some p => simp [AppConfig.resolve, resolveMetricsFromEnv, hp, g2, hbad]

theorem config_defaults_and_fatal_override_witness :
    (∃ c, AppConfig.resolve none [] = .ok c ∧
        c.metrics = [("port", 8932), ("pollingInterval", 43200)]) ∧
    (∃ e, AppConfig.resolve none [("X509_CONFIG_METRICS_PORT", "abc")] =
        .error e) ∧
    (∃ e, AppConfig.resolve none
        [("X509_CONFIG_METRICS_POLLING_INTERVAL", "12h")] = .error e) :=
  ⟨config_defaults_and_fatal_override.1 none [] (fun d h => by cases h)
      rfl rfl,
   config_defaults_and_fatal_override.2.1 none
      [("X509_CONFIG_METRICS_PORT", "abc")] "abc" rfl (by decide) (by decide),
   config_defaults_and_fatal_override.2.2 none
      [("X509_CONFIG_METRICS_POLLING_INTERVAL", "12h")] "12h" rfl (by decide)
      (by decide)⟩

/-- **C9.** When the config document defines a top-level `metrics` mapping,
`__dict__.update` replaces the environment-built metrics settings
wholesale: resolution (when it succeeds) ends with exactly the file's
mapping, so any environment override of port or polling interval is
discarded, and a key missing from the file mapping is absent from the
resolved config. -/
theorem file_metrics_replace_env :
    ∀ (env : List (String × String)) (d : ConfigDoc)
      (m : List (String × Int)) (c : AppConfig),
      d.metrics = some m →
      AppConfig.resolve (some d) env = .ok c →
      c.metrics = m ∧
      (∀ k : String, m.find? (fun p => p.1 = k) = none →
        c.metrics.find? (fun p => p.1 = k) = none) := by
  intro env d m c hm hres
  rcases hr : resolveMetricsFromEnv env with e | m0
  · rw [AppConfig.resolve, hr] at hres
    cases hres
  · rw [AppConfig.resolve, hr] at hres
    have hc : c.metrics = d.metrics.getD m0 := by
      cases hres
      rfl
    rw [hm] at hc
    refine ⟨hc, ?_⟩
    intro k hk
    rw [hc]
    exact hk

theorem file_metrics_replace_env_witness :
    ({ metrics := [("port", 7)], hosts := [], labels := [] } :
        AppConfig).metrics = [("port", 7)] :=
  (file_metrics_replace_env
    [("X509_CONFIG_METRICS_PORT", "9999")]
    { metrics := some [("port", 7)], hosts := none, labels := none }
    [("port", 7)]
    { metrics := [("port", 7)], hosts := [], labels := [] }
    rfl rfl).1

/-- **C7.** The resolved host list is the file-declared hosts followed by
the environment-discovered ones, in environment order; an environment
entry contributes exactly one `HostTarget` iff its name matches
`HOST_<digits>` (case-insensitively) and its value contains exactly one
`:`; the value is then split at that unique separator into name and port;
entries with zero or several separators are skipped without error
(`find_hosts_from_environment` is total). -/
theorem hosts_resolution :
    (∀ (doc : Option ConfigDoc) (env : List (String × String))
        (c : AppConfig),
        AppConfig.resolve doc env = .ok c →
        c.hosts =
          (match doc with | some d => d.hosts.getD [] | none => []) ++
            find_hosts_from_environment env) ∧
    (∀ n v : String,
        (∃ t, hostOfEnvEntry (n, v) = some t) ↔
          (isHostEnvName n = true ∧ v.toList.count ':' = 1)) ∧
    (∀ (n v : String) (a b : List Char),
        isHostEnvName n = true → v.toList = a ++ ':' :: b →
        ':' ∉ a → ':' ∉ b →
        hostOfEnvEntry (n, v) = some ⟨String.mk a, String.mk b⟩) := by
  refine ⟨?_, ?_, ?_⟩
  · intro doc env c hres
    rcases hr : resolveMetricsFromEnv env with e | m0
    · rw [AppConfig.resolve.eq_def, hr] at hres
      cases hres
    · rw [AppConfig.resolve.eq_def, hr] at hres
      cases hres
      cases doc <;> rfl
  · intro n v
    constructor
    · rintro ⟨t, ht⟩
      by_cases hn : isHostEnvName n
      · refine ⟨hn, ?_⟩
        rw [hostOfEnvEntry, if_pos hn] at ht
        have hlen : (pySplitColon v).length = 2 := by
          rcases hs : pySplitColon v with _ | ⟨x, _ | ⟨y, _ | ⟨z, zs⟩⟩⟩ <;>
            rw [hs] at ht <;> simp_all
        have hsl : (splitChar ':' v.toList).length = 2 := by
          simpa [pySplitColon] using hlen
        have := splitChar_length ':' v.toList
        omega
      · rw [hostOfEnvEntry, if_neg hn] at ht
        cases ht
    · rintro ⟨hn, hcount⟩
      have hsl : (splitChar ':' v.toList).length = 2 := by
        rw [splitChar_length, hcount]
      rcases hs : splitChar ':' v.toList with _ | ⟨x, _ | ⟨y, _ | ⟨z, zs⟩⟩⟩ <;>
        rw [hs] at hsl <;> simp at hsl
      refine ⟨⟨String.mk x, String.mk y⟩, ?_⟩
      rw [hostOfEnvEntry, if_pos hn]
      simp only [String.toList] at hs
      simp [pySplitColon, String.toList, hs]
  · intro n v a b hn hv ha hb
    have hs : splitChar ':' v.toList = [a, b] := by
      rw [hv]
      exact splitChar_single ':' a b ha hb
    rw [hostOfEnvEntry, if_pos hn]
    simp only [String.toList] at hs
    simp [pySplitColon, String.toList, hs]

theorem hosts_resolution_witness :
    ({ metrics := [("port", 8932), ("pollingInterval", 43200)]
       hosts := [{ name := "h", port := "443" }], labels := [] } :
        AppConfig).hosts =
      [] ++ find_hosts_from_environment [("x509_config_host_7", "h:443")] ∧
    hostOfEnvEntry ("X509_CONFIG_HOST_1", "a:b") =
      some { name := String.mk ['a'], port := String.mk ['b'] } :=
  ⟨hosts_resolution.1 none [("x509_config_host_7", "h:443")]
      { metrics := [("port", 8932), ("pollingInterval", 43200)]
        hosts := [{ name := "h", port := "443" }], labels := [] } rfl,
   hosts_resolution.2.2 "X509_CONFIG_HOST_1" "a:b" ['a'] ['b'] (by decide)
     (by decide) (by decide) (by decide)⟩

/-- The twelve issuer/subject distinguished-name label names the spec
enumerates (six issuer fields and six subject fields). -/
def dnFieldLabelNames : List String :=
  ["issuer_C", "issuer_L", "issuer_O", "issuer_OU", "issuer_ST", "issuer_CN",
   "subject_C", "subject_L", "subject_O", "subject_OU", "subject_CN",
   "subject_ST"]

/-- The label schema exactly as the claim words it: `host` plus the twelve
issuer/subject fields plus the resolved custom-label names, and nothing
else. Stated for comparison with `gaugeLabelNames`, which is read off the
source. -/
def claimedLabelNames (config : AppConfig) : List String :=
  "host" :: (dnFieldLabelNames ++ config.labels.map (fun x => x.name))

/-- **C5 counterexample.** With no custom labels, the schema declared at
startup contains the label `serial_number`, which is neither `host` nor
one of the twelve issuer/subject fields nor a custom-label name — the
claimed schema omits it. -/
theorem schema_serial_number_cex :
    "serial_number" ∈
        gaugeLabelNames { metrics := [], hosts := [], labels := [] } ∧
    "serial_number" ∉
        claimedLabelNames { metrics := [], hosts := [], labels := [] } := by
  constructor
  · decide
  · decide

/-- **C5 (amended).** The label schema of the per-certificate gauges,
fixed once at startup, consists exactly of `host`, the twelve
issuer/subject distinguished-name fields, the `serial_number` label, and
the resolved custom-label names — no other label name is part of it. -/
theorem schema_labels_amended :
    ∀ (config : AppConfig) (n : String),
      n ∈ gaugeLabelNames config ↔
        (n = "host" ∨ n = "serial_number" ∨ n ∈ dnFieldLabelNames ∨
          n ∈ config.labels.map (fun x => x.name)) := by
  intro config n
  simp only [gaugeLabelNames, fixedLabelNames, dnFieldLabelNames,
    List.mem_append, List.mem_cons, List.mem_singleton, List.not_mem_nil,
    or_false]
  tauto

/-- **C6 counterexample.** Environment label names are lowercased before
the merge, but the duplicate check compares names case-sensitively: with a
file label named `Foo` and the environment variable
`X509_CONFIG_LABEL_FOO`, both `Foo` and `foo` end up in the resolved
list — two labels whose names are equal case-insensitively. -/
theorem labels_ci_dup_cex :
    AppConfig.resolve
        (some { metrics := none, hosts := none
                labels := some [{ name := "Foo", value := "a" }] })
        [("X509_CONFIG_LABEL_FOO", "b")] =
      .ok { metrics := [("port", 8932), ("pollingInterval", 43200)]
            hosts := []
            labels := [{ name := "Foo", value := "a" },
                       { name := "foo", value := "b" }] } ∧
    ¬ (([{ name := "Foo", value := "a" },
         { name := "foo", value := "b" }] : List CustomLabel).map
          (fun l => strLower l.name)).Nodup := by
  constructor
  · rfl
  · decide

/-- **C6 (amended).** The merge appends an environment-declared label only
when no label with exactly the same name (case-sensitive; environment
names are already lowercased) is present: the resolved list is the
file-declared labels followed by a suffix of environment labels whose
names are pairwise distinct and disjoint from the file-declared names, so
on an exact-name collision the file-declared value is the one kept. Names
are not compared case-insensitively, and file-internal duplicates are not
removed. -/
theorem labels_merge_amended :
    ∀ fileLabels envLabels : List CustomLabel,
      ∃ extra : List CustomLabel,
        mergeLabels fileLabels envLabels = fileLabels ++ extra ∧
        (extra.map (fun l => l.name)).Nodup ∧
        extra.Sublist envLabels ∧
        List.Disjoint (extra.map (fun l => l.name))
          (fileLabels.map (fun l => l.name)) := by
  intro fileLabels envLabels
  induction envLabels generalizing fileLabels with
  | nil =>
    exact ⟨[], by simp [mergeLabels], List.nodup_nil, List.nil_sublist _,
      by simp [List.Disjoint]⟩
  | cons e rest ih =>
    have hstep : mergeLabels fileLabels (e :: rest) =
        mergeLabels
          (if (fileLabels.map (fun x => x.name)).contains e.name
           then fileLabels else fileLabels ++ [e]) rest := rfl
    by_cases hmem : e.name ∈ fileLabels.map (fun x => x.name)
    · have hc : (fileLabels.map (fun x => x.name)).contains e.name = true := by
        simpa using hmem
      rw [hstep, if_pos hc]
      obtain ⟨extra, h1, h2, h3, h4⟩ := ih fileLabels
      exact ⟨extra, h1, h2, h3.cons e, h4⟩
    · have hc : ¬ (fileLabels.map (fun x => x.name)).contains e.name = true := by
        simpa using hmem
      rw [hstep, if_neg hc]
      obtain ⟨extra, h1, h2, h3, h4⟩ := ih (fileLabels ++ [e])
      refine ⟨e :: extra, ?_, ?_, h3.cons₂ e, ?_⟩
      · rw [h1, List.append_assoc]
        rfl
      · simp only [List.map_cons, List.nodup_cons]
        refine ⟨fun hx => ?_, h2⟩
        have : e.name ∈ (fileLabels ++ [e]).map (fun x => x.name) := by
          simp
        exact h4 hx this
      · intro x hx
        rcases List.mem_cons.mp hx with hx1 | hx2
        · subst hx1
          exact hmem
        · intro hxf
          have : x ∈ (fileLabels ++ [e]).map (fun x => x.name) := by
            rw [List.map_append, List.mem_append]
            exact Or.inl hxf
          exact h4 hx2 this

theorem processHost_read_errors (config : AppConfig) (now : Int)
    (f : HostTarget → Option X509Certificate) (st : MetricSink × Nat)
    (h : HostTarget) :
    (processHost config now f st h).1.read_errors = st.1.read_errors ∧
    (processHost config now f st h).2 =
      st.2 + (if (f h).isNone then 1 else 0) := by
  rcases hf : f h with _ | cert <;> simp [processHost, hf]

theorem fetch_loop_read_errors (config : AppConfig) (now : Int)
    (f : HostTarget → Option X509Certificate) :
    ∀ (hosts : List HostTarget) (sink : MetricSink) (n : Nat),
      (hosts.foldl (processHost config now f) (sink, n)).1.read_errors =
          sink.read_errors ∧
      (hosts.foldl (processHost config now f) (sink, n)).2 =
          n + hosts.countP (fun h => (f h).isNone) := by
  intro hosts
  induction hosts with
  | nil =>
    intro sink n
    simp
  | cons h t ih =>
    intro sink n
    obtain ⟨p1, p2⟩ := processHost_read_errors config now f (sink, n) h
    rcases hp : processHost config now f (sink, n) h with ⟨s2, n2⟩
    rw [hp] at p1 p2
    rw [List.foldl_cons, hp]
    obtain ⟨i1, i2⟩ := ih s2 n2
    refine ⟨by rw [i1]; exact p1, ?_⟩
    simp only at p1 p2
    rw [i2, p2, List.countP_cons]
    rcases hf : f h with _ | cert
    · simp [hf]
      omega
    · simp [hf]

/-- **C2.** After one collection cycle, the unlabeled `read_errors` gauge
holds exactly the number of hosts whose fetch failed in that cycle, and
the host loop itself never touches that gauge — the aggregate is written
once, after all hosts have been processed. -/
theorem read_errors_aggregate (config : AppConfig) (now : Int)
    (f : HostTarget → Option X509Certificate) (sink : MetricSink) :
    (fetch config now f sink).read_errors =
      some ((config.hosts.countP (fun h => (f h).isNone) : Int)) ∧
    (config.hosts.foldl (processHost config now f) (sink, 0)).1.read_errors =
      sink.read_errors := by
  obtain ⟨h1, h2⟩ := fetch_loop_read_errors config now f config.hosts sink 0
  refine ⟨?_, h1⟩
  have hdef : (fetch config now f sink).read_errors =
      some (((config.hosts.foldl (processHost config now f)
        (sink, 0)).2 : Int)) := rfl
  rw [hdef, h2]
  norm_num

/-- **C3.** For a successfully fetched certificate, the recording step
writes the `expired` gauge series for the composed labels as 1 exactly
when `notAfter` is strictly before the current UTC instant and 0
otherwise — in particular 0 when `notAfter` equals `now` — and writes the
per-host error gauge for that host as 0. -/
theorem expired_strict_before (config : AppConfig) (now : Int)
    (f : HostTarget → Option X509Certificate) (st : MetricSink × Nat)
    (host : HostTarget) (cert : X509Certificate)
    (hf : f host = some cert) :
    ((processHost config now f st host).1.expired
        (composeLabels config host cert) = some 1 ↔
      cert.not_valid_after < now) ∧
    (¬ cert.not_valid_after < now →
      (processHost config now f st host).1.expired
        (composeLabels config host cert) = some 0) ∧
    (cert.not_valid_after = now →
      (processHost config now f st host).1.expired
        (composeLabels config host cert) = some 0) ∧
    (processHost config now f st host).1.host_read_errors
        (hostLabel host) = some 0 := by
  have hexp : (processHost config now f st host).1.expired
      (composeLabels config host cert) =
      some (if cert.not_valid_after < now then 1 else 0) := by
    simp [processHost, hf, setSeries]
  have herr : (processHost config now f st host).1.host_read_errors
      (hostLabel host) = some 0 := by
    simp [processHost, hf, setSeries]
  refine ⟨?_, ?_, ?_, herr⟩
  · rw [hexp]
    by_cases hlt : cert.not_valid_after < now <;> simp [hlt]
  · intro hlt
    rw [hexp, if_neg hlt]
  · intro heq
    rw [hexp, if_neg (by omega)]

theorem expired_strict_before_witness :
    ((processHost { metrics := [], hosts := [], labels := [] } 100
        (fun _ => some { not_valid_after := 100, not_valid_before := 0
                         serial_number := 1, issuer := { attributes := [] }
                         subject := { attributes := [] } })
        (emptySink, 0) { name := "a", port := "443" }).1.expired
      (composeLabels { metrics := [], hosts := [], labels := [] }
        { name := "a", port := "443" }
        { not_valid_after := 100, not_valid_before := 0
          serial_number := 1, issuer := { attributes := [] }
          subject := { attributes := [] } }) = some 0) ∧
    ((processHost { metrics := [], hosts := [], labels := [] } 100
        (fun _ => some { not_valid_after := 100, not_valid_before := 0
                         serial_number := 1, issuer := { attributes := [] }
                         subject := { attributes := [] } })
        (emptySink, 0) { name := "a", port := "443" }).1.host_read_errors
      (hostLabel { name := "a", port := "443" }) = some 0) :=
  ⟨(expired_strict_before { metrics := [], hosts := [], labels := [] } 100
      (fun _ => some { not_valid_after := 100, not_valid_before := 0
                       serial_number := 1, issuer := { attributes := [] }
                       subject := { attributes := [] } })
      (emptySink, 0) { name := "a", port := "443" }
      { not_valid_after := 100, not_valid_before := 0
        serial_number := 1, issuer := { attributes := [] }
        subject := { attributes := [] } } rfl).2.2.1 rfl,
   (expired_strict_before { metrics := [], hosts := [], labels := [] } 100
      (fun _ => some { not_valid_after := 100, not_valid_before := 0
                       serial_number := 1, issuer := { attributes := [] }
                       subject := { attributes := [] } })
      (emptySink, 0) { name := "a", port := "443" }
      { not_valid_after := 100, not_valid_before := 0
        serial_number := 1, issuer := { attributes := [] }
        subject := { attributes := [] } } rfl).2.2.2⟩

/-- **C1.** One collection cycle is a total function — every per-host
failure is absorbed at that host's iteration and the loop continues — so
when fetching host `A` fails and fetching host `B` succeeds in the same
cycle, `B`'s three certificate gauges are updated normally, `A`'s per-host
error flag is set to 1, and the cycle completes, writing the aggregate
error count. -/
theorem per_host_isolation (config : AppConfig) (now : Int)
    (f : HostTarget → Option X509Certificate) (sink : MetricSink)
    (A B : HostTarget) (certB : X509Certificate)
    (hA : f A = none) (hB : f B = some certB)
    (hAB : hostLabel A ≠ hostLabel B)
    (hhosts : config.hosts = [A, B]) :
    (fetch config now f sink).host_read_errors (hostLabel A) = some 1 ∧
    (fetch config now f sink).host_read_errors (hostLabel B) = some 0 ∧
    (fetch config now f sink).not_valid_after
        (composeLabels config B certB) = some certB.not_valid_after ∧
    (fetch config now f sink).not_valid_before
        (composeLabels config B certB) = some certB.not_valid_before ∧
    (fetch config now f sink).expired (composeLabels config B certB) =
        some (if certB.not_valid_after < now then 1 else 0) ∧
    (fetch config now f sink).read_errors = some 1 := by
  refine ⟨?_, ?_, ?_, ?_, ?_, ?_⟩ <;>
    simp [fetch, hhosts, processHost, hA, hB, setSeries, hAB]

/-- A concrete failing host for evaluating the cycle theorems. -/
def hostA : HostTarget := { name := "a", port := "443" }

/-- A concrete succeeding host for evaluating the cycle theorems. -/
def hostB : HostTarget := { name := "b", port := "443" }

/-- A concrete certificate presented by `hostB`. -/
def certB0 : X509Certificate :=
  { not_valid_after := 5, not_valid_before := 1, serial_number := 1
    issuer := { attributes := [] }, subject := { attributes := [] } }

/-- A concrete per-host outcome: `hostB` yields `certB0`, all other hosts
fail. -/
def fetchAB : HostTarget → Option X509Certificate :=
  fun h => if h = hostB then some certB0 else none

/-- A concrete two-host configuration. -/
def cfgAB : AppConfig :=
  { metrics := [], hosts := [hostA, hostB], labels := [] }

theorem per_host_isolation_witness :
    (fetch cfgAB 10 fetchAB emptySink).host_read_errors
        (hostLabel hostA) = some 1 ∧
    (fetch cfgAB 10 fetchAB emptySink).host_read_errors
        (hostLabel hostB) = some 0 ∧
    (fetch cfgAB 10 fetchAB emptySink).not_valid_after
        (composeLabels cfgAB hostB certB0) = some certB0.not_valid_after ∧
    (fetch cfgAB 10 fetchAB emptySink).read_errors = some 1 :=
  have h := per_host_isolation cfgAB 10 fetchAB emptySink hostA hostB certB0
    (by decide) (by decide) (by decide) rfl
  ⟨h.1, h.2.1, h.2.2.1, h.2.2.2.2.2⟩

/-- The value bound to the `host` label in a gauge label key. -/
def labelKeyHost (k : LabelKey) : Option LabelValue :=
  (k.find? (fun p => p.1 = "host")).map (fun p => p.2)

theorem addCustomLabels_find_host (customs : List CustomLabel) :
    ∀ (acc : List (String × LabelValue)) (p : String × LabelValue),
      acc.find? (fun q => q.1 = "host") = some p →
      (addCustomLabels customs acc).find? (fun q => q.1 = "host") =
        some p := by
  induction customs with
  | nil => intro acc p h; exact h
  | cons c cs ih =>
    intro acc p h
    have hstep : addCustomLabels (c :: cs) acc =
        addCustomLabels cs
          (if (acc.map (fun q => q.1)).contains c.name then acc
           else acc ++ [(c.name, LabelValue.str c.value)]) := rfl
    rw [hstep]
    by_cases hc : (acc.map (fun q => q.1)).contains c.name = true
    · rw [if_pos hc]
      exact ih acc p h
    · rw [if_neg hc]
      apply ih
      rw [List.find?_append, h]
      rfl

theorem labelKeyHost_compose (config : AppConfig) (host : HostTarget)
    (cert : X509Certificate) :
    labelKeyHost (composeLabels config host cert) =
      some (LabelValue.str (hostLabel host)) := by
  have h : (composeLabels config host cert).find? (fun q => q.1 = "host") =
      some ("host", LabelValue.str (hostLabel host)) := by
    apply addCustomLabels_find_host
    simp [List.find?]
  simp [labelKeyHost, h]

theorem failed_host_loop (config : AppConfig) (now : Int)
    (f : HostTarget → Option X509Certificate) (A : HostTarget) :
    ∀ (hosts : List HostTarget) (sink : MetricSink) (n : Nat),
      (∀ h ∈ hosts, hostLabel h = hostLabel A → f h = none) →
      (∀ k : LabelKey, labelKeyHost k = some (.str (hostLabel A)) →
        (hosts.foldl (processHost config now f) (sink, n)).1.not_valid_after
            k = sink.not_valid_after k ∧
        (hosts.foldl (processHost config now f) (sink, n)).1.not_valid_before
            k = sink.not_valid_before k ∧
        (hosts.foldl (processHost config now f) (sink, n)).1.expired k =
            sink.expired k) ∧
      ((A ∈ hosts ∨ sink.host_read_errors (hostLabel A) = some 1) →
        (hosts.foldl (processHost config now f) (sink, n)).1.host_read_errors
          (hostLabel A) = some 1) := by
  intro hosts
  induction hosts with
  | nil =>
    intro sink n hfail
    refine ⟨fun k _ => ⟨rfl, rfl, rfl⟩, ?_⟩
    rintro (hm | hflag)
    · exact absurd hm (List.not_mem_nil A)
    · exact hflag
  | cons h t ih =>
    intro sink n hfail
    rw [List.foldl_cons]
    have hfail' : ∀ x ∈ t, hostLabel x = hostLabel A → f x = none :=
      fun x hx hl => hfail x (List.mem_cons_of_mem _ hx) hl
    rcases hf : f h with _ | cert
    · have hstep : processHost config now f (sink, n) h =
          ({ sink with host_read_errors :=
              setSeries sink.host_read_errors (hostLabel h) 1 }, n + 1) := by
        simp [processHost, hf]
      rw [hstep]
      obtain ⟨ihf, ihe⟩ := ih _ (n + 1) hfail'
      refine ⟨fun k hk => ihf k hk, ?_⟩
      intro hOr
      apply ihe
      rcases hOr with hm | hflag
      · rcases List.mem_cons.mp hm with heq | hmt
        · right
          subst heq
          simp [setSeries]
        · left
          exact hmt
      · right
        by_cases hl : hostLabel A = hostLabel h
        · simp [setSeries, hl]
        · simp [setSeries, hl, hflag]
    · have hne : hostLabel h ≠ hostLabel A := by
        intro hl
        have hcontra := hfail h (List.mem_cons_self h t) hl
        rw [hf] at hcontra
        cases hcontra
      have hstep : processHost config now f (sink, n) h =
          ({ not_valid_after :=
               setSeries sink.not_valid_after (composeLabels config h cert)
                 cert.not_valid_after
             not_valid_before :=
               setSeries sink.not_valid_before (composeLabels config h cert)
                 cert.not_valid_before
             expired :=
               setSeries sink.expired (composeLabels config h cert)
                 (if cert.not_valid_after < now then 1 else 0)
             host_read_errors :=
               setSeries sink.host_read_errors (hostLabel h) 0
             read_errors := sink.read_errors }, n) := by
        simp [processHost, hf]
      rw [hstep]
      obtain ⟨ihf, ihe⟩ := ih _ n hfail'
      refine ⟨fun k hk => ?_, ?_⟩
      · have hkne : k ≠ composeLabels config h cert := by
          intro he
          rw [he, labelKeyHost_compose] at hk
          exact hne (by injection hk with hv; injection hv)
        obtain ⟨e1, e2, e3⟩ := ihf k hk
        exact ⟨by rw [e1]; simp [setSeries, hkne],
               by rw [e2]; simp [setSeries, hkne],
               by rw [e3]; simp [setSeries, hkne]⟩
      · intro hOr
        apply ihe
        rcases hOr with hm | hflag
        · rcases List.mem_cons.mp hm with heq | hmt
          · subst heq
            exact absurd rfl hne
          · left
            exact hmt
        · right
          have hne2 : hostLabel A ≠ hostLabel h := Ne.symm hne
          simp [setSeries, hne2, hflag]

/-- **C4.** For a host whose fetch fails in a cycle (and that no
same-labeled successful duplicate shadows), the cycle sets that host's
per-host error gauge to 1 and writes none of its `cert_not_after`,
`cert_not_before` or `expired` series — every series keyed with that
host's `host` label keeps the value it had before the cycle. -/
theorem failed_host_frame (config : AppConfig) (now : Int)
    (f : HostTarget → Option X509Certificate) (sink : MetricSink)
    (A : HostTarget) (hmem : A ∈ config.hosts)
    (hfail : ∀ h ∈ config.hosts, hostLabel h = hostLabel A → f h = none) :
    (∀ k : LabelKey, labelKeyHost k = some (.str (hostLabel A)) →
      (fetch config now f sink).not_valid_after k = sink.not_valid_after k ∧
      (fetch config now f sink).not_valid_before k =
          sink.not_valid_before k ∧
      (fetch config now f sink).expired k = sink.expired k) ∧
    (fetch config now f sink).host_read_errors (hostLabel A) = some 1 := by
  obtain ⟨hframe, hflag⟩ :=
    failed_host_loop config now f A config.hosts sink 0 hfail
  exact ⟨fun k hk => hframe k hk, hflag (Or.inl hmem)⟩

/-- A concrete per-host outcome where every fetch fails. -/
def fetchNone : HostTarget → Option X509Certificate := fun _ => none

/-- A concrete one-host configuration. -/
def cfgA : AppConfig := { metrics := [], hosts := [hostA], labels := [] }

theorem failed_host_frame_witness :
    (fetch cfgA 0 fetchNone emptySink).not_valid_after
        [("host", LabelValue.str "a:443")] =
      emptySink.not_valid_after [("host", LabelValue.str "a:443")] ∧
    (fetch cfgA 0 fetchNone emptySink).host_read_errors
        (hostLabel hostA) = some 1 :=
  have h := failed_host_frame cfgA 0 fetchNone emptySink hostA (by decide)
    (fun _ _ _ => rfl)
  ⟨(h.1 [("host", LabelValue.str "a:443")] (by decide)).1, h.2⟩
